import Mathlib

/-!
Shallow embedding of the Ring Of Fire game coordinator
(`src/api/game_management.js`) and proofs about its specified behaviour.

The JavaScript source is embedded as follows:
* card objects become the `Card` structure (the `action` property is
  `Option String`: `none` models the property being absent/`undefined`);
* `Deck` and `Game` become structures with explicit state passing;
* randomness (`_.shuffle`, `Math.random`, `nanoid`) is passed in as an
  oracle argument (a shuffle outcome, a chosen index, a chosen id);
* a thrown JavaScript `TypeError` is modelled by `Except`/an explicit
  error component — `JSError.typeError`;
* the aliasing of card objects between `cardsJSON.cards` and each deck's
  working array (the spread `[...cardsJSON.cards]` copies the array of
  references, not the card objects) is modelled separately by a small
  heap model (`CardStore`, `HeapDeck`) where a card object is a reference
  (index) into a store.
-/

namespace RingOfFire

/-- A thrown JavaScript error (here always a `TypeError`). -/
inductive JSError where
  | typeError (msg : String)
deriving Repr, DecidableEq

/-- A card object from `cards.json`: attributes `href`, `title`, `code`
(doc comment of `Deck.pickNextCard`). `action` models the property added at
draw time by `card.action = this.gameRules[card.code]`; `none` means the
property is absent or `undefined`. -/
structure Card where
  href : String
  title : String
  code : String
  action : Option String := none
deriving Repr, DecidableEq

/-- `class Deck`: holds `gameRules` (a map from card code to rule text,
modelled as `String → Option String` since indexing a missing key yields
`undefined`) and the working list `cards`. -/
structure Deck where
  gameRules : String → Option String
  cards : List Card

/-- `Deck` constructor: `this.cards = [...cardsJSON.cards]` — the working
list starts as a copy of the catalog's card list (`catalogCards` stands for
`cardsJSON.cards`). -/
def Deck.new (gameRules : String → Option String) (catalogCards : List Card) : Deck :=
  { gameRules := gameRules, cards := catalogCards }

/-- `Deck.pickNextCard`: `this.cards = _.shuffle(this.cards)` then
`let card = this.cards.pop()` then `card.action = this.gameRules[card.code]`.
`shuffled` is the oracle outcome of `_.shuffle(this.cards)` (theorems
assume it is a permutation of `cards`). On an empty deck `pop()` returns
`undefined` and the assignment to `card.action` throws a `TypeError`. -/
def Deck.pickNextCard (d : Deck) (shuffled : List Card) : Except JSError (Card × Deck) :=
  match shuffled.getLast? with
  | none =>
      Except.error (JSError.typeError "Cannot set properties of undefined (setting action)")
  | some card =>
      Except.ok ({ card with action := d.gameRules card.code },
                 { d with cards := shuffled.dropLast })

/-- Iterates `pickNextCard`, one oracle shuffle outcome per draw
(the harness for "K successive calls" in the spec); stops at the first
thrown error. Returns the drawn cards in order and the final deck. -/
def Deck.draws (d : Deck) : List (List Card → List Card) → List Card × Deck
  | [] => ([], d)
  | σ :: σs =>
    match d.pickNextCard (σ d.cards) with
    | Except.error _ => ([], d)
    | Except.ok (c, d') => (c :: (d'.draws σs).1, (d'.draws σs).2)

/-- The two `throw new Error(...)` sites of `Game.addPlayer`:
`gameAlreadyStarted` is `'attempted to add a player when the game has
already started'`, `duplicatePlayer` is `'user is already in the game'`. -/
inductive AddPlayerError where
  | gameAlreadyStarted
  | duplicatePlayer
deriving Repr, DecidableEq

/-- `class Game`. `host` is `Option String` because `calcHost` sets it to
`this.players[0]`, which is `undefined` on an empty roster. -/
structure Game where
  gameName : String
  host : Option String
  gameID : String
  players : List String
  isPlaying : Bool
  currentPlayerIndex : Nat
  deck : Deck

/-- `Game` constructor. `gameID` stands for the `nanoid(UUID_LENGTH)`
outcome; `gameRules` and `catalogCards` are the imported `rules.json` and
`cardsJSON.cards`. -/
def Game.create (gameName host gameID : String)
    (gameRules : String → Option String) (catalogCards : List Card) : Game :=
  { gameName := gameName
    host := some host
    gameID := gameID
    players := [host]
    isPlaying := false
    currentPlayerIndex := 0
    deck := Deck.new gameRules catalogCards }

/-- `Game.nextPlayer`:
`this.currentPlayerIndex = (this.currentPlayerIndex + 1) % this.players.length`
and return `this.players[this.currentPlayerIndex]` (as `Option`: indexing
out of range yields `undefined`). -/
def Game.nextPlayer (g : Game) : Game × Option String :=
  let i := (g.currentPlayerIndex + 1) % g.players.length
  ({ g with currentPlayerIndex := i }, g.players.get? i)

/-- The value of the getter `get currentPlayer()`:
`this.players[this.currentPlayerIndex]`. -/
def Game.currentPlayer (g : Game) : Option String :=
  g.players.get? g.currentPlayerIndex

/-- The getter `get numPlayers()`: `this.players.length`. -/
def Game.numPlayers (g : Game) : Nat :=
  g.players.length

/-- `Game.addPlayer`: throws if `isPlaying`, throws if
`this.players.indexOf(player) !== -1`, else `this.players.push(player)`.
An error result models the throw: the `push` is not reached, so the
caller's game state is unchanged. -/
def Game.addPlayer (g : Game) (player : String) : Except AddPlayerError Game :=
  if g.isPlaying = true then
    Except.error AddPlayerError.gameAlreadyStarted
  else if player ∈ g.players then
    Except.error AddPlayerError.duplicatePlayer
  else
    Except.ok { g with players := g.players ++ [player] }

/-- Iterates `addPlayer` over a list of usernames (the harness for "a
sequence of addPlayer calls"); a throw aborts the sequence. -/
def Game.addPlayers (g : Game) : List String → Except AddPlayerError Game
  | [] => Except.ok g
  | u :: us =>
    match g.addPlayer u with
    | Except.error e => Except.error e
    | Except.ok g' => g'.addPlayers us

/-- `Game.startGame`: `this.currentPlayerIndex = this._randomPlayerIndex()`
then `this.isPlaying = true`. `k` is the oracle outcome of
`_randomPlayerIndex()` = `Math.floor(Math.random() * this.players.length)`
(so `k < players.length` whenever the roster is non-empty). -/
def Game.startGame (g : Game) (k : Nat) : Game :=
  { g with currentPlayerIndex := k, isPlaying := true }

/-- `Game.removePlayer`: finds `indexOf(username)` and `splice`s it out if
present — i.e. removes the first occurrence, a no-op when absent.
`currentPlayerIndex` is not touched. -/
def Game.removePlayer (g : Game) (username : String) : Game :=
  { g with players := g.players.erase username }

/-- `Game.calcHost`: `this.host = this.players[0]` and return it
(`undefined` when the roster is empty). -/
def Game.calcHost (g : Game) : Game × Option String :=
  ({ g with host := g.players.head? }, g.players.head?)

/-- `n` successive `nextPlayer` calls (harness for "N consecutive
advanceTurn calls"). -/
def Game.advanceTurns (g : Game) : Nat → Game
  | 0 => g
  | n + 1 => (g.nextPlayer).1.advanceTurns n

/-- A `socket.emit` / `io.in(room).emit` performed by a handler. -/
inductive Emit where
  | nextRound (player : Option String)
  | pickedNextCard (picker : String) (card : Card)
  | userLeft (players : List String) (host : Option String)
deriving Repr, DecidableEq

/-- `const games = {}` — the registry mapping `gameID` to the game.
A JavaScript object has unique keys, so a total map to `Option`. -/
def Registry : Type := String → Option Game

/-- The empty registry. -/
def Registry.empty : Registry := fun _ => none

/-- `games[id] = game`. -/
def Registry.set (r : Registry) (id : String) (g : Game) : Registry :=
  fun x => if x = id then some g else r x

/-- `delete games[id]`. -/
def Registry.erase (r : Registry) (id : String) : Registry :=
  fun x => if x = id then none else r x

/-- The outcome of running one socket event handler: the registry after
the handler, the list of events it emitted, and `some e` when it ended by
throwing a JavaScript error (uncaught inside the handler). -/
structure HandlerResult where
  games : Registry
  emits : List Emit
  thrown : Option JSError

/-- The `'startGame'` listener installed by `registerStartGameEvent`.
It is registered for the creator *and for every joiner* (`onJoinGame`
calls `registerStartGameEvent` with the joiner's username), and its body
performs **no host check**: it looks up `games[gameID]`, calls
`game.startGame()` unconditionally, and then evaluates
`game.currentPlayer()` for the broadcast. `currentPlayer` is declared as
a getter (`get currentPlayer()`), so `game.currentPlayer()` calls the
getter's string value as a function and throws a `TypeError` — after the
state mutation, before the emit. `username` is the registered user (never
consulted by the body); `k` is the `_randomPlayerIndex()` oracle. -/
def startGameHandler (games : Registry) (gameID : String) (username : String) (k : Nat) :
    HandlerResult :=
  match games gameID with
  | none =>
      -- `game.startGame()` on `undefined` throws before any mutation.
      { games := games, emits := [],
        thrown := some (JSError.typeError "Cannot read properties of undefined (reading startGame)") }
  | some game =>
      let _ := username
      let game := game.startGame k
      { games := games.set gameID game, emits := [],
        thrown := some (JSError.typeError "game.currentPlayer is not a function") }

/-- The `'nextRound'` listener installed by `onNextRound`. Its guard is
`if (game.currentPlayer() !== username) return`, but `currentPlayer` is a
getter, so evaluating the condition already throws a `TypeError` for every
caller — before the comparison, before `nextPlayer()`, before any emit. -/
def nextRoundHandler (games : Registry) (gameID : String) (username : String) :
    HandlerResult :=
  match games gameID with
  | none =>
      { games := games, emits := [],
        thrown := some (JSError.typeError "Cannot read properties of undefined (reading currentPlayer)") }
  | some _ =>
      let _ := username
      { games := games, emits := [],
        thrown := some (JSError.typeError "game.currentPlayer is not a function") }

/-- The `'getCard'` listener installed by `onGetCard`. Its guard is
`if (username !== game.currentPlayer()) return` with `currentPlayer` a
getter, so as in `nextRoundHandler` the handler throws a `TypeError` for
every caller before the deck is ever touched. -/
def getCardHandler (games : Registry) (gameID : String) (username : String) :
    HandlerResult :=
  match games gameID with
  | none =>
      { games := games, emits := [],
        thrown := some (JSError.typeError "Cannot read properties of undefined (reading currentPlayer)") }
  | some _ =>
      let _ := username
      { games := games, emits := [],
        thrown := some (JSError.typeError "game.currentPlayer is not a function") }

/-- The `'disconnect'` listener installed by `onLeaveRoom`:
`game.removePlayer(username)`, broadcast
`userLeft {players: game.players, host: game.calcHost()}` (`calcHost`
reassigns `this.host = this.players[0]` unconditionally), then
`if (game.numPlayers == 0) delete games[gameID]`. -/
def leaveRoomHandler (games : Registry) (gameID : String) (username : String) :
    HandlerResult :=
  match games gameID with
  | none =>
      { games := games, emits := [],
        thrown := some (JSError.typeError "Cannot read properties of undefined (reading removePlayer)") }
  | some game =>
      let game := game.removePlayer username
      let (game, newHost) := game.calcHost
      let games := games.set gameID game
      let emits := [Emit.userLeft game.players newHost]
      if game.numPlayers = 0 then
        { games := games.erase gameID, emits := emits, thrown := none }
      else
        { games := games, emits := emits, thrown := none }

/-!
Heap model of card objects, for the aliasing between `cardsJSON.cards`
and every deck's working array: a card object is a reference (an index
into a `CardStore`), the catalog is a list of references, and
`[...cardsJSON.cards]` copies the reference list only.
-/

/-- The mutable card record behind one card object reference. -/
structure CardRec where
  href : String
  title : String
  code : String
  action : Option String := none
deriving Repr, DecidableEq

/-- The heap of card objects; a card object reference is an index. -/
abbrev CardStore : Type := List CardRec

/-- `Deck` in the heap model: `cards` is the list of references obtained
by `[...cardsJSON.cards]` — the same references the catalog holds. -/
structure HeapDeck where
  gameRules : String → Option String
  cards : List Nat

/-- `Deck` constructor in the heap model: copy the catalog's reference
list (the card records themselves are shared, not copied). -/
def HeapDeck.new (gameRules : String → Option String) (catalogRefs : List Nat) : HeapDeck :=
  { gameRules := gameRules, cards := catalogRefs }

/-- `Deck.pickNextCard` in the heap model: shuffle (oracle `shuffled`),
pop the last reference, and perform `card.action = this.gameRules[card.code]`
— an in-place mutation of the shared card record in the store. Returns the
drawn reference, the shrunk deck, and the updated store. -/
def HeapDeck.pickNextCard (d : HeapDeck) (s : CardStore) (shuffled : List Nat) :
    Except JSError (Nat × HeapDeck × CardStore) :=
  match shuffled.getLast? with
  | none =>
      Except.error (JSError.typeError "Cannot set properties of undefined (setting action)")
  | some ref =>
      match s.get? ref with
      | none =>
          Except.error (JSError.typeError "dangling card reference")
      | some rcd =>
          let s' := s.set ref { rcd with action := d.gameRules rcd.code }
          Except.ok (ref, { d with cards := shuffled.dropLast }, s')

/-- Projection: the store after a successful heap-model draw. -/
def drawnStore (r : Except JSError (Nat × HeapDeck × CardStore)) : Option CardStore :=
  (r.toOption).map (fun p => p.2.2)

/-!  Concrete fixtures (a sample catalog, rule mapping and sessions). -/

/-- A sample rule mapping (`rules.json`): maps a card code to rule text. -/
def rulesEx : String → Option String := fun c =>
  if c = "A" then some "Waterfall" else if c = "K" then some "Make a rule" else none

/-- A rule mapping with no entries. -/
def rules0 : String → Option String := fun _ => none

/-- Sample catalog card. -/
def cardA : Card := { href := "a.png", title := "Ace", code := "A" }

/-- Sample catalog card. -/
def cardK : Card := { href := "k.png", title := "King", code := "K" }

/-- A sample two-card catalog (`cardsJSON.cards`). -/
def catalogEx : List Card := [cardA, cardK]

/-- A deck freshly built over the sample catalog. -/
def deckEx : Deck := Deck.new rulesEx catalogEx

/-- One possible `_.shuffle` outcome: the identity permutation. -/
def idShuffle : List Card → List Card := fun l => l

/-- A two-player lobby session, host `"alice"`. -/
def gameAB : Game :=
  { gameName := "party"
    host := some "alice"
    gameID := "gid"
    players := ["alice", "bob"]
    isPlaying := false
    currentPlayerIndex := 0
    deck := Deck.new rules0 [] }

/-- The registry holding only `gameAB` under `"gid"`. -/
def regAB : Registry := Registry.set Registry.empty "gid" gameAB

/-- `gameAB` once playing, with `"alice"` the current player. -/
def gameABPlaying : Game :=
  { gameAB with isPlaying := true, currentPlayerIndex := 0, deck := Deck.new rules0 [cardA] }

/-- The registry holding only `gameABPlaying` under `"gid"`. -/
def regABPlaying : Registry := Registry.set Registry.empty "gid" gameABPlaying

/-!  Claim theorems. -/

/-- C1: the claim says a draw on an exhausted deck fails with the
`EmptyDeck` condition rather than failing in any other way. The code has
no such condition: after the `deckEx` catalog (2 cards) is fully drawn the
working list is empty, and the next `pickNextCard` call pops `undefined`
and throws a `TypeError` from `card.action = this.gameRules[card.code]` —
an obscure crash, not an `EmptyDeck` failure. -/
theorem pickNextCard_exhausted_throws_typeError :
    ((deckEx.draws [idShuffle, idShuffle]).2.cards = []) ∧
    ((deckEx.draws [idShuffle, idShuffle]).2.pickNextCard [] =
      Except.error (JSError.typeError
        "Cannot set properties of undefined (setting action)")) := by
  exact ⟨rfl, rfl⟩

/-- C2: the claim says `currentPlayerIndex` stays a valid index into
`players` after every operation, in particular after `removePlayer`.
Counter-evaluation on a reachable session: create with host `"alice"`,
`addPlayer "bob"`, start with random index 1 (valid, `1 < 2`), then
`removePlayer "bob"` — the roster shrinks to `["alice"]` but
`currentPlayerIndex` is left at `1`, which is out of range. -/
theorem removePlayer_leaves_turnIndex_out_of_range :
    ((Game.create "party" "alice" "gid" rules0 []).addPlayer "bob" =
      Except.ok gameAB) ∧
    (1 < gameAB.players.length) ∧
    (((gameAB.startGame 1).removePlayer "bob").players = ["alice"]) ∧
    (((gameAB.startGame 1).removePlayer "bob").currentPlayerIndex = 1) ∧
    (¬ ((gameAB.startGame 1).removePlayer "bob").currentPlayerIndex <
        ((gameAB.startGame 1).removePlayer "bob").players.length) := by
  refine ⟨?_, ?_, ?_, ?_, ?_⟩
  · rfl
  · decide
  · rfl
  · rfl
  · decide

/-- C3: the claim says a `startGame` message from a non-host is not
effective. Counter-evaluation: in the lobby session `gameAB` (host
`"alice"`), the non-host `"bob"` emits `startGame`; the listener (which
`onJoinGame` registers for every joiner and whose body performs no host
check) calls `game.startGame()` unconditionally, so the session
transitions to Playing and `turnIndex` is re-randomized (here to 1). The
broadcast is then lost to the `game.currentPlayer()` `TypeError`. -/
theorem nonHost_startGame_is_effective :
    (gameAB.host ≠ some "bob") ∧
    (((startGameHandler regAB "gid" "bob" 1).games "gid").map Game.isPlaying =
      some true) ∧
    (((startGameHandler regAB "gid" "bob" 1).games "gid").map
        Game.currentPlayerIndex = some 1) ∧
    ((startGameHandler regAB "gid" "bob" 1).emits = []) := by
  refine ⟨?_, ?_, ?_, ?_⟩
  · decide
  · rfl
  · rfl
  · rfl

/-- C4: the claim says an advance-turn or draw request from a non-current
player is silently ignored. Counter-evaluation: in `gameABPlaying` the
current player is `"alice"`, and a `nextRound` or `getCard` request from
`"bob"` indeed mutates nothing and emits nothing — but not by the silent
early `return`: the guard itself evaluates `game.currentPlayer()`, calling
the getter value as a function, so the handler throws a `TypeError`
(the uncaught-error component is `some …`, not the silent `none`). -/
theorem nonCurrent_request_throws_typeError :
    (gameABPlaying.currentPlayer = some "alice") ∧
    (nextRoundHandler regABPlaying "gid" "bob" =
      { games := regABPlaying, emits := [],
        thrown := some (JSError.typeError "game.currentPlayer is not a function") }) ∧
    (getCardHandler regABPlaying "gid" "bob" =
      { games := regABPlaying, emits := [],
        thrown := some (JSError.typeError "game.currentPlayer is not a function") }) := by
  refine ⟨?_, ?_, ?_⟩
  · rfl
  · rfl
  · rfl

/-- Helper: `addPlayer` on a lobby game with a fresh username succeeds and
appends. -/
theorem addPlayer_fresh (g : Game) (u : String) (hp : g.isPlaying = false)
    (hu : u ∉ g.players) :
    g.addPlayer u = Except.ok { g with players := g.players ++ [u] } := by
  simp [Game.addPlayer, hp, hu]

/-- Helper: a sequence of `addPlayer` calls with distinct fresh usernames
appends them all, in order. -/
theorem addPlayers_append (g : Game) (us : List String) (hp : g.isPlaying = false)
    (hfresh : ∀ v ∈ us, v ∉ g.players) (hnd : us.Nodup) :
    g.addPlayers us = Except.ok { g with players := g.players ++ us } := by
  induction us generalizing g with
  | nil => simp [Game.addPlayers]
  | cons v vs ih =>
    have hv : v ∉ g.players := hfresh v (List.mem_cons_self v vs)
    have hstep := addPlayer_fresh g v hp hv
    have hrec := ih { g with players := g.players ++ [v] } hp
      (by
        intro w hw
        have hwv : w ≠ v := by
          rcases List.nodup_cons.mp hnd with ⟨hvni, _⟩
          intro he
          exact hvni (he ▸ hw)
        have hwg : w ∉ g.players := hfresh w (List.mem_cons_of_mem v hw)
        simp [hwv, hwg])
      (List.nodup_cons.mp hnd).2
    simp only [Game.addPlayers, hstep]
    rw [hrec]
    simp [List.append_assoc]

/-- C5: `addPlayer` is allowed only in the lobby — once `isPlaying` it
throws (`GameAlreadyStarted`, the `'attempted to add a player when the
game has already started'` error) before touching the roster; a username
already present throws (`DuplicatePlayer`, the `'user is already in the
game'` error) before the `push`; otherwise the username is appended at
the end of `players`, and a sequence of calls with distinct fresh
usernames appends them all in order (insertion order = turn order). An
error result models the throw, which in the source occurs before any
mutation, so the game state is left unchanged. -/
theorem addPlayer_spec (g : Game) (u : String) (us : List String) :
    (g.isPlaying = true →
      g.addPlayer u = Except.error AddPlayerError.gameAlreadyStarted) ∧
    (g.isPlaying = false → u ∈ g.players →
      g.addPlayer u = Except.error AddPlayerError.duplicatePlayer) ∧
    (g.isPlaying = false → u ∉ g.players →
      g.addPlayer u = Except.ok { g with players := g.players ++ [u] }) ∧
    (g.isPlaying = false → (∀ v ∈ us, v ∉ g.players) → us.Nodup →
      g.addPlayers us = Except.ok { g with players := g.players ++ us }) := by
  refine ⟨?_, ?_, ?_, ?_⟩
  · intro hp
    simp [Game.addPlayer, hp]
  · intro hp hu
    simp [Game.addPlayer, hp, hu]
  · intro hp hu
    exact addPlayer_fresh g u hp hu
  · intro hp hfresh hnd
    exact addPlayers_append g us hp hfresh hnd

/-- Witness for C5 at concrete sessions: joining a started game throws
`GameAlreadyStarted`; a duplicate username throws `DuplicatePlayer`; two
fresh distinct usernames are appended in order. -/
theorem addPlayer_spec_witness :
    (gameABPlaying.addPlayer "carol" =
      Except.error AddPlayerError.gameAlreadyStarted) ∧
    (gameAB.addPlayer "alice" = Except.error AddPlayerError.duplicatePlayer) ∧
    (gameAB.addPlayers ["carol", "dave"] =
      Except.ok { gameAB with players := ["alice", "bob", "carol", "dave"] }) := by
  refine ⟨?_, ?_, ?_⟩
  · exact (addPlayer_spec gameABPlaying "carol" []).1 rfl
  · exact (addPlayer_spec gameAB "alice" []).2.1 rfl (by decide)
  · exact (addPlayer_spec gameAB "x" ["carol", "dave"]).2.2.2 rfl (by decide) (by decide)

/-- Helper: `nextPlayer` and its iteration never change the roster. -/
theorem advanceTurns_players (g : Game) (n : Nat) :
    (g.advanceTurns n).players = g.players := by
  induction n generalizing g with
  | zero => rfl
  | succ n ih => exact ih (g.nextPlayer).1

/-- Helper: after `n + 1` calls of `nextPlayer` the turn index is
`(start + (n + 1)) % len(players)`. -/
theorem advanceTurns_index (g : Game) (n : Nat) :
    (g.advanceTurns (n + 1)).currentPlayerIndex =
      (g.currentPlayerIndex + (n + 1)) % g.players.length := by
  induction n generalizing g with
  | zero =>
    rfl
  | succ n ih =>
    have hstep : g.advanceTurns (n + 2) = (g.nextPlayer).1.advanceTurns (n + 1) := rfl
    rw [hstep, ih]
    have hpl : (g.nextPlayer).1.players = g.players := rfl
    have hix : (g.nextPlayer).1.currentPlayerIndex =
        (g.currentPlayerIndex + 1) % g.players.length := rfl
    rw [hpl, hix, Nat.mod_add_mod]
    congr 1
    omega

/-- C7: each successful `nextPlayer` call sets the turn index to
`(turnIndex + 1) mod N` and returns the player at the new index; `N`
consecutive calls return the index to its starting value, and the indices
visited by those `N` calls are a permutation of `0, …, N-1` (every player
is visited exactly once). -/
theorem nextPlayer_cycles (g : Game)
    (hN : 0 < g.players.length) (hi : g.currentPlayerIndex < g.players.length) :
    ((g.nextPlayer).1.currentPlayerIndex =
      (g.currentPlayerIndex + 1) % g.players.length) ∧
    ((g.nextPlayer).2 =
      g.players.get? ((g.currentPlayerIndex + 1) % g.players.length)) ∧
    ((g.advanceTurns g.players.length).currentPlayerIndex =
      g.currentPlayerIndex) ∧
    (((List.range g.players.length).map
        (fun k => (g.advanceTurns (k + 1)).currentPlayerIndex)).Perm
      (List.range g.players.length)) := by
  obtain ⟨m, hm⟩ : ∃ m, g.players.length = m + 1 :=
    ⟨g.players.length - 1, (Nat.succ_pred_eq_of_pos hN).symm⟩
  refine ⟨rfl, rfl, ?_, ?_⟩
  · rw [hm, advanceTurns_index g m, ← hm, Nat.add_mod_right]
    exact Nat.mod_eq_of_lt hi
  · have hmap : (List.range g.players.length).map
        (fun k => (g.advanceTurns (k + 1)).currentPlayerIndex) =
        (List.range g.players.length).map
          (fun k => (g.currentPlayerIndex + (k + 1)) % g.players.length) := by
      refine List.map_congr_left ?_
      intro k _
      exact advanceTurns_index g k
    rw [hmap]
    have hnd : ((List.range g.players.length).map
        (fun k => (g.currentPlayerIndex + (k + 1)) % g.players.length)).Nodup := by
      refine List.Nodup.map_on ?_ (List.nodup_range _)
      intro x hx y hy hxy
      have hx' : x < g.players.length := List.mem_range.mp hx
      have hy' : y < g.players.length := List.mem_range.mp hy
      have hc : x + 1 ≡ y + 1 [MOD g.players.length] :=
        Nat.ModEq.add_left_cancel' g.currentPlayerIndex hxy
      have hc' : x ≡ y [MOD g.players.length] :=
        Nat.ModEq.add_right_cancel' 1 hc
      have : x % g.players.length = y % g.players.length := hc'
      rwa [Nat.mod_eq_of_lt hx', Nat.mod_eq_of_lt hy'] at this
    have hsub : ((List.range g.players.length).map
        (fun k => (g.currentPlayerIndex + (k + 1)) % g.players.length)) ⊆
        List.range g.players.length := by
      intro x hx
      rcases List.mem_map.mp hx with ⟨k, _, hk⟩
      rw [List.mem_range, ← hk]
      exact Nat.mod_lt _ hN
    have hsp := List.subperm_of_subset hnd hsub
    refine hsp.perm_of_length_le ?_
    simp

/-- A three-player playing session with the turn at index 1. -/
def gameABC : Game :=
  { gameName := "party"
    host := some "alice"
    gameID := "gid3"
    players := ["alice", "bob", "carol"]
    isPlaying := true
    currentPlayerIndex := 1
    deck := Deck.new rules0 [] }

/-- Witness for C7 at the concrete 3-player session `gameABC`: one call
moves the index from 1 to 2 and returns `"carol"`, three calls return the
index to 1, and the three visited indices are a permutation of
`{0, 1, 2}`. -/
theorem nextPlayer_cycles_witness :
    ((gameABC.nextPlayer).1.currentPlayerIndex = 2) ∧
    ((gameABC.nextPlayer).2 = some "carol") ∧
    ((gameABC.advanceTurns 3).currentPlayerIndex = 1) ∧
    (((List.range 3).map
        (fun k => (gameABC.advanceTurns (k + 1)).currentPlayerIndex)).Perm
      (List.range 3)) := by
  have h := nextPlayer_cycles gameABC (by decide) (by decide)
  exact ⟨h.1, h.2.1, h.2.2.1, h.2.2.2⟩

/-- Helper: invariant of iterated drawing. If every supplied shuffle
outcome is a permutation and at most `|cards|` draws are requested, then
every draw succeeds, the rule mapping is untouched, the drawn codes plus
the remaining codes are a permutation of the starting codes, and every
drawn card carries `action = gameRules code`. -/
theorem draws_spec (σs : List (List Card → List Card)) : ∀ (d : Deck),
    (∀ σ ∈ σs, ∀ l : List Card, (σ l).Perm l) →
    σs.length ≤ d.cards.length →
    ((d.draws σs).1.length = σs.length) ∧
    ((d.draws σs).2.gameRules = d.gameRules) ∧
    (((d.draws σs).1.map Card.code ++ (d.draws σs).2.cards.map Card.code).Perm
      (d.cards.map Card.code)) ∧
    (∀ c ∈ (d.draws σs).1, c.action = d.gameRules c.code) := by
  induction σs with
  | nil =>
    intro d _ _
    refine ⟨rfl, rfl, List.Perm.refl _, ?_⟩
    intro c hc
    simp [Deck.draws] at hc
  | cons σ σs ih =>
    intro d hσ hK
    have hp : (σ d.cards).Perm d.cards := hσ σ (List.mem_cons_self σ σs) d.cards
    have hne : d.cards ≠ [] := by
      intro h
      rw [h] at hK
      simp at hK
    have hLne : σ d.cards ≠ [] := by
      intro h
      exact hne ((h ▸ hp).symm.eq_nil)
    have hlast : (σ d.cards).getLast? = some ((σ d.cards).getLast hLne) :=
      List.getLast?_eq_getLast_of_ne_nil hLne
    have hpick : d.pickNextCard (σ d.cards) =
        Except.ok
          ({ (σ d.cards).getLast hLne with
              action := d.gameRules ((σ d.cards).getLast hLne).code },
           { d with cards := (σ d.cards).dropLast }) := by
      simp [Deck.pickNextCard, hlast]
    have hstep : d.draws (σ :: σs) =
        ({ (σ d.cards).getLast hLne with
            action := d.gameRules ((σ d.cards).getLast hLne).code } ::
          (({ d with cards := (σ d.cards).dropLast }).draws σs).1,
         (({ d with cards := (σ d.cards).dropLast }).draws σs).2) := by
      simp [Deck.draws, hpick]
    have hK' : σs.length ≤ ({ d with cards := (σ d.cards).dropLast } : Deck).cards.length := by
      have h1 : (σ d.cards).length = d.cards.length := hp.length_eq
      have h2 : ((σ d.cards).dropLast).length = (σ d.cards).length - 1 :=
        List.length_dropLast _
      simp only [List.length_cons] at hK
      simp only [h2, h1]
      omega
    obtain ⟨hlen, hrules, hperm, hact⟩ :=
      ih { d with cards := (σ d.cards).dropLast }
        (fun τ hτ => hσ τ (List.mem_cons_of_mem σ hτ)) hK'
    refine ⟨?_, ?_, ?_, ?_⟩
    · rw [hstep]
      simp [hlen]
    · rw [hstep]
      exact hrules
    · rw [hstep]
      simp only [List.map_cons, List.cons_append]
      refine List.Perm.trans (hperm.cons _) ?_
      have hsingle :
          (((σ d.cards).getLast hLne).code :: ((σ d.cards).dropLast).map Card.code).Perm
            ((((σ d.cards).dropLast).map Card.code) ++ [((σ d.cards).getLast hLne).code]) :=
        (List.perm_append_singleton _ _).symm
      refine List.Perm.trans hsingle ?_
      have hjoin : (((σ d.cards).dropLast).map Card.code) ++
          [((σ d.cards).getLast hLne).code] = (σ d.cards).map Card.code := by
        rw [show [((σ d.cards).getLast hLne).code] =
            [((σ d.cards).getLast hLne)].map Card.code from rfl]
        rw [← List.map_append, List.dropLast_append_getLast hLne]
      rw [hjoin]
      exact hp.map Card.code
    · intro c hc
      rw [hstep] at hc
      rcases List.mem_cons.mp hc with h | h
      · rw [h]
      · exact hact c h

/-- C6: `K` successive successful `pickNextCard` calls (modelled as
`draws` with `K` permutation oracles) on a deck whose catalog codes are
unique return exactly `K` cards, with pairwise distinct codes, each code
present in the original catalog, and each card's `action` equal to the
rule mapping's entry for its code (`none` exactly when the code has no
mapped rule); no code is ever returned twice. -/
theorem pickNextCard_draws_distinct (d : Deck) (σs : List (List Card → List Card))
    (hσ : ∀ σ ∈ σs, ∀ l : List Card, (σ l).Perm l)
    (hK : σs.length ≤ d.cards.length)
    (hnd : (d.cards.map Card.code).Nodup) :
    ((d.draws σs).1.length = σs.length) ∧
    (((d.draws σs).1.map Card.code).Nodup) ∧
    (∀ c ∈ (d.draws σs).1, c.code ∈ d.cards.map Card.code) ∧
    (∀ c ∈ (d.draws σs).1, c.action = d.gameRules c.code) := by
  obtain ⟨hlen, _, hperm, hact⟩ := draws_spec σs d hσ hK
  refine ⟨hlen, ?_, ?_, hact⟩
  · exact (((hperm.nodup_iff).mpr hnd).of_append_left)
  · intro c hc
    refine hperm.subset ?_
    exact List.mem_append_left _ (List.mem_map_of_mem Card.code hc)

/-- Witness for C6: drawing both cards of the two-card sample deck (with
identity shuffles) yields two cards with distinct codes `["K", "A"]`, both
from the catalog, with the catalog's rule text as `action`. -/
theorem pickNextCard_draws_distinct_witness :
    ((deckEx.draws [idShuffle, idShuffle]).1.length = 2) ∧
    (((deckEx.draws [idShuffle, idShuffle]).1.map Card.code).Nodup) ∧
    (∀ c ∈ (deckEx.draws [idShuffle, idShuffle]).1,
      c.code ∈ deckEx.cards.map Card.code) ∧
    (∀ c ∈ (deckEx.draws [idShuffle, idShuffle]).1,
      c.action = deckEx.gameRules c.code) := by
  have hσ : ∀ σ ∈ [idShuffle, idShuffle], ∀ l : List Card, (σ l).Perm l := by
    intro σ hσ l
    rcases List.mem_cons.mp hσ with h | h
    · rw [h]
      exact List.Perm.refl l
    · rw [List.mem_singleton.mp h]
      exact List.Perm.refl l
  have h := pickNextCard_draws_distinct deckEx [idShuffle, idShuffle] hσ
    (by decide) (by decide)
  exact h

/-!  C8: catalog aliasing. -/

/-- A one-record card store (the heap behind `cardsJSON.cards`). -/
def storeC8 : CardStore := [{ href := "a.png", title := "Ace", code := "A" }]

/-- The catalog's reference list: it holds the single record. -/
def catalogRefsC8 : List Nat := [0]

/-- A deck built over the catalog: `[...cardsJSON.cards]` copies only the
reference list, so the deck holds the same record references. -/
def heapDeckC8 : HeapDeck := HeapDeck.new rulesEx catalogRefsC8

/-- C8 counterexample: the claim says no `pickNextCard` draw mutates the
catalog's card records. But the deck's working array shares the card
records with the catalog, and `card.action = this.gameRules[card.code]`
writes through the shared reference: after one draw the catalog's record
for code `"A"` has gained `action = "Waterfall"` — the store differs
from the startup store. -/
theorem catalog_record_mutated_by_draw :
    (drawnStore (heapDeckC8.pickNextCard storeC8 [0]) =
      some [{ href := "a.png", title := "Ace", code := "A",
              action := some "Waterfall" }]) ∧
    (drawnStore (heapDeckC8.pickNextCard storeC8 [0]) ≠ some storeC8) := by
  refine ⟨rfl, ?_⟩
  decide

/-- C8 amended: each successful draw mutates exactly the drawn card's
shared record — its `action` field is assigned the rule mapping's entry —
and leaves every other record unchanged; because the records are shared
by reference with the startup catalog (and all other decks), the catalog
is *not* read-only after startup. -/
theorem pickNextCard_mutates_exactly_drawn_record (d : HeapDeck) (s : CardStore)
    (shuffled : List Nat) (ref : Nat) (rest : List Nat) (rcd : CardRec)
    (hs : shuffled = rest ++ [ref]) (hr : s.get? ref = some rcd) :
    (d.pickNextCard s shuffled =
      Except.ok (ref, { d with cards := rest },
        s.set ref { rcd with action := d.gameRules rcd.code })) ∧
    ((s.set ref { rcd with action := d.gameRules rcd.code }).get? ref =
      some { rcd with action := d.gameRules rcd.code }) ∧
    (∀ j, j ≠ ref →
      (s.set ref { rcd with action := d.gameRules rcd.code }).get? j = s.get? j) := by
  have hlt : ref < s.length := by
    by_contra hge
    rw [List.get?_eq_getElem?, List.getElem?_eq_none (by omega)] at hr
    exact Option.noConfusion hr
  have hr' : s[ref]? = some rcd := by
    rw [← List.get?_eq_getElem?]
    exact hr
  refine ⟨?_, ?_, ?_⟩
  · rw [hs]
    simp [HeapDeck.pickNextCard, List.getLast?_concat, List.dropLast_concat, hr']
  · simp [List.get?_eq_getElem?, List.getElem?_set_eq_of_lt _ hlt]
  · intro j hj
    simp [List.get?_eq_getElem?, List.getElem?_set_ne (by omega : ref ≠ j)]

/-- Witness for C8's amended statement at the concrete one-card catalog:
the drawn record's `action` is set through the shared reference and there
is no other record to disturb. -/
theorem pickNextCard_mutates_exactly_drawn_record_witness :
    (heapDeckC8.pickNextCard storeC8 [0] =
      Except.ok (0, { heapDeckC8 with cards := [] },
        storeC8.set 0 { href := "a.png", title := "Ace", code := "A",
                        action := some "Waterfall" })) ∧
    ((storeC8.set 0 { href := "a.png", title := "Ace", code := "A",
                      action := some "Waterfall" }).get? 0 =
      some { href := "a.png", title := "Ace", code := "A",
             action := some "Waterfall" }) := by
  have h := pickNextCard_mutates_exactly_drawn_record heapDeckC8 storeC8 [0] 0 []
    { href := "a.png", title := "Ace", code := "A" } rfl rfl
  exact ⟨h.1, h.2.1⟩

/-!  C9 and C10: disconnect-triggered removal. -/

/-- C9: on a session whose roster is exactly `[u]`, the disconnect of `u`
empties `players` and the handler deletes the registry entry, so a
subsequent lookup of that id no longer resolves. -/
theorem last_player_leave_deletes_session (r : Registry) (id u : String) (g : Game)
    (hlookup : r id = some g) (hp : g.players = [u]) :
    ((g.removePlayer u).players = []) ∧
    ((leaveRoomHandler r id u).games id = none) := by
  have hremove : (g.removePlayer u).players = [] := by
    simp [Game.removePlayer, hp]
  refine ⟨hremove, ?_⟩
  simp only [leaveRoomHandler, hlookup]
  simp only [Game.calcHost, Game.numPlayers, hremove]
  simp [Registry.erase]

/-- Witness for C9: the one-player session `gameSolo` is deleted from the
registry when `"alice"` disconnects. -/
theorem last_player_leave_deletes_session_witness :
    (((Game.create "party" "alice" "solo" rules0 []).removePlayer "alice").players
      = []) ∧
    ((leaveRoomHandler
        (Registry.set Registry.empty "solo"
          (Game.create "party" "alice" "solo" rules0 []))
        "solo" "alice").games "solo" = none) := by
  have h := last_player_leave_deletes_session
    (Registry.set Registry.empty "solo" (Game.create "party" "alice" "solo" rules0 []))
    "solo" "alice" (Game.create "party" "alice" "solo" rules0 []) rfl rfl
  exact h

/-- C10: after every disconnect-triggered removal that leaves the session
non-empty, the stored session's roster is the old roster minus the leaver
and its `host` has been recomputed to the player at index 0 of that
remaining list — `calcHost` runs on *every* departure, not only when the
host leaves. -/
theorem leave_recomputes_host_to_head (r : Registry) (id u : String) (g : Game)
    (hlookup : r id = some g) (hne : g.players.erase u ≠ []) :
    (((leaveRoomHandler r id u).games id).map Game.players =
      some (g.players.erase u)) ∧
    (((leaveRoomHandler r id u).games id).map Game.host =
      some (g.players.erase u).head?) := by
  have hlen : (g.players.erase u).length ≠ 0 := by
    intro h
    exact hne (List.length_eq_zero.mp h)
  simp only [leaveRoomHandler, hlookup, Game.removePlayer, Game.calcHost, Game.numPlayers]
  simp only [if_neg hlen]
  simp [Registry.set]

/-- Witness for C10: in the three-player session `gameABC` (host
`"alice"`), the non-host `"carol"` disconnects; the stored roster becomes
`["alice", "bob"]` and the host is (re)assigned to its head `"alice"`. -/
theorem leave_recomputes_host_to_head_witness :
    (((leaveRoomHandler (Registry.set Registry.empty "gid3" gameABC) "gid3" "carol").games
        "gid3").map Game.players = some ["alice", "bob"]) ∧
    (((leaveRoomHandler (Registry.set Registry.empty "gid3" gameABC) "gid3" "carol").games
        "gid3").map Game.host = some (some "alice")) := by
  have h := leave_recomputes_host_to_head
    (Registry.set Registry.empty "gid3" gameABC) "gid3" "carol" gameABC rfl (by decide)
  exact h

end RingOfFire
